import Mathlib

/-!
Verification of the XGBoost tutorial notebooks.

The repository consists of two notebooks whose cells call external
libraries (pandas, numpy, scikit-learn, xgboost).  The library routines
the claims are about are not part of the repository's own source, so
they are modelled here from the spec's description of their behaviour;
the notebook cells themselves (their statement structure and the
straight-line data-preparation loop) are embedded from the source.
-/

namespace MLNotebooks

/-- Modelled from the spec: `sklearn.metrics.accuracy_score` (not in the
repository source) — "accuracy equals the count of matching predictions
divided by total predictions": pairs the targets with the predictions
and divides the number of equal pairs by the number of predictions. -/
def accuracy_score (y p : List Int) : ℚ :=
  (((y.zip p).filter (fun ab => ab.1 = ab.2)).length : ℚ) / (p.length : ℚ)

/-- The count of indices `i` with `y[i] = p[i]`, the spec's description of
the numerator of the accuracy. -/
def matchCount (y p : List Int) : ℕ :=
  ((List.range p.length).filter (fun i => y.getD i 0 = p.getD i 0)).length

/-- Modelled from the spec: `numpy`'s `.mean()` (not in the repository
source) — the sum of the entries, accumulated left to right, divided by
their number. -/
def npMean (xs : List ℚ) : ℚ :=
  (xs.foldl (· + ·) 0) / (xs.length : ℚ)

/-- Modelled from the spec: the classes a fitted `LabelEncoder` holds
(not in the repository source) — the distinct values occurring in the
fitted vector, "map string to index". -/
def classesOf (ys : List String) : List String :=
  ys.dedup

/-- Modelled from the spec: `LabelEncoder.transform` on one value — the
index of the value among the fitted distinct classes. -/
def labelTransform (ys : List String) (v : String) : ℕ :=
  (classesOf ys).indexOf v

/-- Modelled from the spec: fold sizes of scikit-learn's
`cross_validation.KFold(n, n_folds=k)` (not in the repository source) —
each fold has `n / k` rows and the first `n % k` folds get one extra row. -/
def foldSize (n k i : ℕ) : ℕ :=
  n / k + (if i < n % k then 1 else 0)

/-- The first row index of fold `i`: the total size of the folds before it. -/
def foldStart (n k i : ℕ) : ℕ :=
  ((List.range i).map (foldSize n k)).sum

/-- Modelled from the spec: the test-row indices of fold `i` of
`KFold(n, n_folds=k)` — a contiguous block starting at `foldStart`. -/
def kfoldTest (n k i : ℕ) : List ℕ :=
  (List.range (foldSize n k i)).map (fun m => foldStart n k i + m)

/-- Modelled from the spec: the training-row indices of rotation `i` —
all dataset rows not in the held-back test fold. -/
def kfoldTrain (n k i : ℕ) : List ℕ :=
  (List.range n).filter (fun j => decide (j ∉ kfoldTest n k i))

/-- A one-hot row: length-`n` vector that is `1` at position `v`, `0` elsewhere. -/
def oneHotRow (n v : ℕ) : List ℚ :=
  (List.range n).map (fun t => if t = v then (1 : ℚ) else 0)

/-- Modelled from the spec: label encoding followed by
`OneHotEncoder.fit_transform` on one categorical column (loop body of the
one-hot cell) — each value becomes the one-hot row of its integer code. -/
def encodeCol (col : List String) : List (List ℚ) :=
  col.map (fun s => oneHotRow (classesOf col).length (labelTransform col s))

/-- `numpy.concatenate(axis=1)`: horizontal concatenation, row by row. -/
def hconcat (a b : List (List ℚ)) : List (List ℚ) :=
  List.zipWith (· ++ ·) a b

/-- One iteration of the one-hot cell's loop, translated from the source:
when the accumulator is still `None` it becomes the encoded column,
otherwise the encoded column is concatenated onto it. -/
def encodedStep (acc : Option (List (List ℚ))) (c : List String) :
    Option (List (List ℚ)) :=
  match acc with
  | none => some (encodeCol c)
  | some m => some (hconcat m (encodeCol c))

/-- The accumulator loop of the one-hot cell, translated from the source:
start from `None` and run `encodedStep` over the columns. -/
def encodedLoop (cols : List (List String)) : Option (List (List ℚ)) :=
  cols.foldl encodedStep none

/-- Modelled from the spec: the sentinel replacement `X[X == ?] = 0` of
the horse-colic cell — every entry equal to the sentinel string becomes
the string `0`, every other entry is kept. -/
def replaceSentinel (x : List (List String)) : List (List String) :=
  x.map (fun row => row.map (fun s => if s = "?" then "0" else s))

/-- Entry `(i, j)` of a row-major table, when both indices are in range. -/
def entry (x : List (List α)) (i j : ℕ) : Option α :=
  x[i]?.bind (fun row => row[j]?)

/-- Column `j` of a row-major table. -/
def column (x : List (List α)) (j : ℕ) : List α :=
  x.filterMap (fun row => row[j]?)

/-- Modelled from the spec: the per-column statistic of
`sklearn.preprocessing.Imputer` — the arithmetic mean of the column's
non-missing entries (missing entries are `none`, numpy's NaN). -/
def colMean (x : List (List (Option ℚ))) (j : ℕ) : ℚ :=
  npMean ((column x j).filterMap id)

/-- One row of `Imputer.fit_transform`: entry `j` keeps its value when
present and becomes the column-`j` mean when missing. -/
def imputeRow (m : ℕ → ℚ) : ℕ → List (Option ℚ) → List ℚ
  | _, [] => []
  | j, v :: rest =>
      (match v with
       | some a => a
       | none => m j) :: imputeRow m (j + 1) rest

/-- Modelled from the spec: `Imputer().fit_transform(X)` of the
imputation cell — replace each missing entry by its column mean. -/
def imputeX (x : List (List (Option ℚ))) : List (List ℚ) :=
  x.map (fun row => imputeRow (colMean x) 0 row)

/-- Python statements at the granularity the notebooks use: assignments,
expression statements (calls such as print), for-loops and conditionals. -/
inductive Stmt : Type
  | assign (lhs rhs : String) : Stmt
  | expr (e : String) : Stmt
  | forLoop (var bound : String) (body : List Stmt) : Stmt
  | ifElse (cond : String) (thenBranch elseBranch : List Stmt) : Stmt

/-- A statement is straight-line when it is a plain assignment or
expression statement — no loop, no conditional. -/
def straightLineStmt : Stmt → Bool
  | .assign _ _ => true
  | .expr _ => true
  | .forLoop _ _ _ => false
  | .ifElse _ _ _ => false

/-- A cell is straight-line when every statement in it is. -/
def straightLine (cell : List Stmt) : Bool :=
  cell.all straightLineStmt

/-- The iris label-encoding cell of the data-preparation notebook. -/
def irisCell : List Stmt :=
  [ .assign "data" "pandas.read_csv(iris.csv, header=None)",
    .assign "dataset" "data.values",
    .assign "X" "dataset[:, 0:4]",
    .assign "Y" "dataset[:, 4]",
    .assign "label_encoder" "LabelEncoder()",
    .assign "label_encoder" "label_encoder.fit(Y)",
    .assign "label_encoded_y" "label_encoder.transform(Y)",
    .assign "seed" "7",
    .assign "test_size" "0.33",
    .assign "X_train, X_test, y_train, y_test" "cross_validation.train_test_split(X, label_encoded_y, test_size=test_size, random_state=seed)",
    .assign "model" "xgboost.XGBClassifier()",
    .expr "model.fit(X_train, y_train)",
    .expr "print(model)",
    .assign "y_pred" "model.predict(X_test)",
    .assign "predictions" "[round(value) for value in y_pred]",
    .assign "accuracy" "accuracy_score(y_test, predictions)",
    .expr "print(Accuracy: %.2f%% % (accuracy * 100.0))" ]

/-- The one-hot encoding cell of the data-preparation notebook, with its
column loop and the accumulator conditional. -/
def oneHotEncodeCell : List Stmt :=
  [ .assign "data" "read_csv(datasets-uci-breast-cancer.csv, header=None)",
    .assign "dataset" "data.values",
    .assign "X" "dataset[:, 0:9]",
    .assign "Y" "dataset[:, 9]",
    .assign "encoded_x" "None",
    .forLoop "i" "range(0, X.shape[1])"
      [ .assign "label_encoder" "LabelEncoder()",
        .assign "feature" "label_encoder.fit_transform(X[:, i])",
        .assign "feature" "feature.reshape(X.shape[0], 1)",
        .assign "onehot_encoder" "OneHotEncoder(sparse=False)",
        .assign "feature" "onehot_encoder.fit_transform(feature)",
        .ifElse "encoded_x is None"
          [ .assign "encoded_x" "feature" ]
          [ .assign "encoded_x" "numpy.concatenate((encoded_x, feature), axis=1)" ] ],
    .expr "print(X shape: , encoded_x.shape)",
    .assign "label_encoder" "LabelEncoder()",
    .assign "label_encoder" "label_encoder.fit(Y)",
    .assign "label_encoded_y" "label_encoder.transform(Y)",
    .assign "seed" "7",
    .assign "test_size" "0.33",
    .assign "X_train, X_test, y_train, y_test" "train_test_split(encoded_x, label_encoded_y, test_size=test_size, random_state=seed)",
    .assign "model" "XGBClassifier()",
    .expr "model.fit(X_train, y_train)",
    .expr "print(model)",
    .assign "y_pred" "model.predict(X_test)",
    .assign "predictions" "[round(value) for value in y_pred]",
    .assign "accuracy" "accuracy_score(y_test, predictions)",
    .expr "print(Accuracy: %.2f%% % (accuracy * 100.0))" ]

/-- The horse-colic cell that sets missing values to zero. -/
def horseColicCell : List Stmt :=
  [ .assign "dataframe" "read_csv(horse-colic.csv, delim_whitespace=True, header=None)",
    .assign "dataset" "dataframe.values",
    .assign "X" "dataset[:, 0:27]",
    .assign "Y" "dataset[:, 27]",
    .assign "X[X == ?]" "0",
    .assign "X" "X.astype(float32)",
    .assign "label_encoder" "LabelEncoder()",
    .assign "label_encoder" "label_encoder.fit(Y)",
    .assign "label_encoded_y" "label_encoder.transform(Y)",
    .assign "seed" "7",
    .assign "test_size" "0.33",
    .assign "X_train, X_test, y_train, y_test" "train_test_split(X, label_encoded_y, test_size=test_size, random_state=seed)",
    .assign "model" "XGBClassifier()",
    .expr "model.fit(X_train, y_train)",
    .expr "print(model)",
    .assign "y_pred" "model.predict(X_test)",
    .assign "predictions" "[round(value) for value in y_pred]",
    .assign "accuracy" "accuracy_score(y_test, predictions)",
    .expr "print(Accuracy: %.2f%% % (accuracy * 100.0))" ]

/-- The horse-colic cell that imputes missing values with the column mean. -/
def imputeCell : List Stmt :=
  [ .assign "dataframe" "read_csv(horse-colic.csv, delim_whitespace=True, header=None)",
    .assign "dataset" "dataframe.values",
    .assign "X" "dataset[:, 0:27]",
    .assign "Y" "dataset[:, 27]",
    .assign "X[X == ?]" "numpy.nan",
    .assign "X" "X.astype(float32)",
    .assign "imputer" "Imputer()",
    .assign "imputed_x" "imputer.fit_transform(X)",
    .assign "label_encoder" "LabelEncoder()",
    .assign "label_encoder" "label_encoder.fit(Y)",
    .assign "label_encoded_y" "label_encoder.transform(Y)",
    .assign "seed" "7",
    .assign "test_size" "0.33",
    .assign "X_train, X_test, y_train, y_test" "train_test_split(imputed_x, label_encoded_y, test_size=test_size, random_state=seed)",
    .assign "model" "XGBClassifier()",
    .expr "model.fit(X_train, y_train)",
    .expr "print(model)",
    .assign "y_pred" "model.predict(X_test)",
    .assign "predictions" "[round(value) for value in y_pred]",
    .assign "accuracy" "accuracy_score(y_test, predictions)",
    .expr "print(Accuracy: %.2f%% % (accuracy * 100.0))" ]

/-- The train/test-split evaluation cell of the evaluation notebook. -/
def trainTestCell : List Stmt :=
  [ .assign "dataset" "loadtxt(pima-indians-diabetes.csv, delimiter=,)",
    .assign "X" "dataset[:, 0:8]",
    .assign "Y" "dataset[:, 8]",
    .assign "X_train, X_test, y_train, y_test" "train_test_split(X, Y, test_size=0.33, random_state=7)",
    .assign "model" "XGBClassifier()",
    .expr "model.fit(X_train, y_train)",
    .assign "y_pred" "model.predict(X_test)",
    .assign "predictions" "[round(value) for value in y_pred]",
    .assign "accuracy" "accuracy_score(y_test, predictions)",
    .expr "print(Accuracy: %.2f%% % (accuracy * 100.0))" ]

/-- The k-fold cross-validation cell of the evaluation notebook. -/
def kfoldCell : List Stmt :=
  [ .assign "dataset" "loadtxt(pima-indians-diabetes.csv, delimiter=,)",
    .assign "X" "dataset[:, 0:8]",
    .assign "Y" "dataset[:, 8]",
    .assign "model" "xgboost.XGBClassifier()",
    .assign "kfold" "KFold(n=len(X), n_folds=10, random_state=7)",
    .assign "results" "cross_val_score(model, X, Y, cv=kfold)",
    .expr "print(Accuracy: %.2f%% (%.2f%%) % (results.mean()*100, results.std()*100))" ]

/-- The stratified k-fold cross-validation cell of the evaluation notebook. -/
def stratifiedCell : List Stmt :=
  [ .assign "dataset" "loadtxt(pima-indians-diabetes.csv, delimiter=,)",
    .assign "X" "dataset[:, 0:8]",
    .assign "Y" "dataset[:, 8]",
    .assign "model" "xgboost.XGBClassifier()",
    .assign "kfold" "StratifiedKFold(Y, n_folds=10, random_state=7)",
    .assign "results" "cross_val_score(model, X, Y, cv=kfold)",
    .expr "print(Accuracy: %.2f%% (%.2f%%) % (results.mean()*100, results.std()*100))" ]

/-- All code cells of the two notebooks. -/
def notebookCells : List (List Stmt) :=
  [irisCell, oneHotEncodeCell, horseColicCell, imputeCell,
   trainTestCell, kfoldCell, stratifiedCell]

/-- Modelled from the spec: the runtime faults a library call may raise —
missing files, malformed rows, unexpected data types. -/
inductive Fault : Type
  | missingFile : Fault
  | malformedRow : Fault
  | badType : Fault
deriving DecidableEq

/-- Two base-ten digit characters, the fractional part of a `%.2f` rendering. -/
def twoDigits (a : ℕ) : String :=
  String.mk [Nat.digitChar (a / 10 % 10), Nat.digitChar (a % 10)]

/-- Modelled from the spec: C-style `%.2f` rendering of a nonnegative
rational — round to the nearest hundredth and print the integer part, a
point, and exactly two fractional digits. -/
def fmt2 (q : ℚ) : String :=
  (if q < 0 then "-" else "") ++
    toString ((round (|q| * 100)).toNat / 100) ++ "." ++
    twoDigits ((round (|q| * 100)).toNat % 100)

/-- The accuracy line the train/test cells print, translated from
`print(Accuracy: %.2f%% % (accuracy * 100.0))`. -/
def accuracyLine (acc : ℚ) : String :=
  "Accuracy: " ++ fmt2 (acc * 100) ++ "%"

/-- The line the cross-validation cells print, translated from
`print(Accuracy: %.2f%% (%.2f%%) % (results.mean()*100, results.std()*100))`;
`m` is the mean score and `s` the standard deviation. -/
def kfoldLine (m s : ℚ) : String :=
  "Accuracy: " ++ fmt2 (m * 100) ++ "% (" ++ fmt2 (s * 100) ++ "%)"

/-- Modelled from the spec: the phase structure shared by the evaluation
cells — a fallible load, a fallible data transformation, then the
infallible fit/predict/score pipeline ending in the printed accuracy
line.  No phase is wrapped in a handler, so the cell is the plain
sequencing of the phases. -/
def runCell (load : Except Fault (List (List String)))
    (transform : List (List String) → Except Fault (List (List ℚ)))
    (evalModel : List (List ℚ) → ℚ) : Except Fault String :=
  match load with
  | .error f => .error f
  | .ok t =>
      match transform t with
      | .error f => .error f
      | .ok num => .ok (accuracyLine (evalModel num))

/-- The ambient randomness of the Python process, which a library call
consumes only when it is not given an explicit `random_state`. -/
structure Entropy : Type where
  state : ℕ

/-- Modelled from the spec: how scikit-learn obtains a seed — an explicit
`random_state` wins; otherwise the ambient process randomness is drawn. -/
def drawSeed : Option ℕ → Entropy → ℕ
  | some s, _ => s
  | none, e => e.state

/-- Index order used by a seeded shuffle; `perm seed n` abstracts the
pseudo-random permutation of `0..n-1` the library derives from the seed. -/
def shuffleOrder (perm : ℕ → ℕ → List ℕ) (randomState : Option ℕ)
    (e : Entropy) (n : ℕ) : List ℕ :=
  perm (drawSeed randomState e) n

/-- Modelled from the spec: `train_test_split(X, y, test_size, random_state)` —
shuffle the row indices with the drawn seed, hold back the first
`ceil(n * test_size)` rows as the test set, train on the rest. -/
def train_test_split (perm : ℕ → ℕ → List ℕ) (x : List (List ℚ)) (y : List ℚ)
    (testSize : ℚ) (randomState : Option ℕ) (e : Entropy) :
    List (List ℚ) × List (List ℚ) × List ℚ × List ℚ :=
  let order := shuffleOrder perm randomState e x.length
  let nTest := (⌈(x.length : ℚ) * testSize⌉).toNat
  let testIdx := order.take nTest
  let trainIdx := order.drop nTest
  (trainIdx.map (fun i => x.getD i []), testIdx.map (fun i => x.getD i []),
   trainIdx.map (fun i => y.getD i 0), testIdx.map (fun i => y.getD i 0))

/-- Modelled from the spec: the `KFold` object — when `shuffle` is
requested the row order is permuted with the drawn seed, otherwise the
rows stay in dataset order; the contiguous fold pattern of
`kfoldTrain`/`kfoldTest` is then applied to that order. -/
def kfoldSplits (perm : ℕ → ℕ → List ℕ) (shuffle : Bool) (randomState : Option ℕ)
    (e : Entropy) (n k : ℕ) : List (List ℕ × List ℕ) :=
  let order := if shuffle then shuffleOrder perm randomState e n else List.range n
  (List.range k).map
    (fun i => ((kfoldTrain n k i).map (fun j => order.getD j 0),
               (kfoldTest n k i).map (fun j => order.getD j 0)))

/-- The train/test evaluation cell as a function of the data, the
abstracted learning routine `fitPredict`, and the ambient randomness:
the split is taken with `random_state=7`, exactly as in the source. -/
def runTrainTestCell (perm : ℕ → ℕ → List ℕ)
    (fitPredict : List (List ℚ) → List ℚ → List (List ℚ) → List Int)
    (e : Entropy) (x : List (List ℚ)) (y : List ℚ) : String :=
  let split := train_test_split perm x y (33 / 100) (some 7) e
  let predictions := fitPredict split.1 split.2.2.1 split.2.1
  accuracyLine (accuracy_score (split.2.2.2.map (fun v => ⌊v⌋)) predictions)

/-- The k-fold cross-validation cell as a function of the abstracted
per-fold scorer, the floating square root (for the printed standard
deviation) and the ambient randomness: the folds are taken without
shuffling and with `random_state=7`, exactly as in the source. -/
def runKFoldCell (perm : ℕ → ℕ → List ℕ)
    (score : List ℕ × List ℕ → ℚ) (sqrtFn : ℚ → ℚ)
    (e : Entropy) (n : ℕ) : String :=
  let results := (kfoldSplits perm false (some 7) e n 10).map score
  kfoldLine (npMean results)
    (sqrtFn (npMean (results.map (fun v => (v - npMean results) ^ 2))))

/-! Helper lemmas. -/

theorem matches_zip_eq_matchCount :
    ∀ (y p : List Int), y.length = p.length →
      (((y.zip p).filter (fun ab => ab.1 = ab.2)).length) = matchCount y p := by
  intro y
  induction y with
  | nil =>
      intro p hp
      have : p = [] := by
        cases p with
        | nil => rfl
        | cons b bs => simp at hp
      subst this
      simp [matchCount]
  | cons a as ih =>
      intro p hp
      cases p with
      | nil => simp at hp
      | cons b bs =>
          have hlen : as.length = bs.length := by simpa using hp
          have ihd := ih bs hlen
          simp only [matchCount, List.length_cons, List.range_succ_eq_map,
            List.zip_cons_cons, List.filter_cons]
          rw [List.filter_map]
          simp only [List.length_map, Function.comp_def, List.getD_cons_succ,
            List.getD_cons_zero]
          by_cases hab : a = b
          · simp [hab, matchCount] at ihd ⊢
            omega
          · simp [hab, matchCount] at ihd ⊢
            omega

theorem foldl_add_from (l : List ℚ) : ∀ a : ℚ, l.foldl (· + ·) a = a + l.sum := by
  induction l with
  | nil => simp
  | cons x xs ih =>
      intro a
      simp only [List.foldl_cons, List.sum_cons, ih (a + x)]
      ring

theorem foldl_add_eq_sum (l : List ℚ) : l.foldl (· + ·) 0 = l.sum := by
  simpa using foldl_add_from l 0

/-! Theorems for the claims. -/

/-- Claim C1: for target and prediction vectors of the same positive
length, the accuracy computed by the evaluation cells equals the count of
indices at which target and prediction agree, divided by the total number
of predictions. -/
theorem accuracy_is_fraction_of_matches (y p : List Int)
    (hlen : y.length = p.length) (_hpos : 0 < p.length) :
    accuracy_score y p = (matchCount y p : ℚ) / (p.length : ℚ) := by
  unfold accuracy_score
  rw [matches_zip_eq_matchCount y p hlen]

/-- Witness for claim C1 at a concrete pair of vectors. -/
theorem accuracy_is_fraction_of_matches_witness :
    accuracy_score [1, 0, 2] [1, 1, 2] =
      (matchCount [1, 0, 2] [1, 1, 2] : ℚ) / (([1, 1, 2] : List Int).length : ℚ) :=
  accuracy_is_fraction_of_matches [1, 0, 2] [1, 1, 2] (by decide) (by decide)

/-- Claim C2: the summary value printed as the mean by the k-fold cell is
the arithmetic mean of the k per-fold scores: their sum divided by k. -/
theorem kfold_mean_is_arithmetic_mean (results : List ℚ) (k : ℕ)
    (hk : results.length = k) (_hpos : 0 < k) :
    npMean results = results.sum / (k : ℚ) := by
  unfold npMean
  rw [foldl_add_eq_sum, hk]

/-- Witness for claim C2 at a concrete list of three scores. -/
theorem kfold_mean_is_arithmetic_mean_witness :
    npMean [1/2, 1, 3/4] = ([1/2, 1, 3/4] : List ℚ).sum / (3 : ℚ) :=
  kfold_mean_is_arithmetic_mean [1/2, 1, 3/4] 3 (by decide) (by decide)

theorem foldStart_succ (n k i : ℕ) :
    foldStart n k (i + 1) = foldStart n k i + foldSize n k i := by
  simp [foldStart, List.range_succ]

theorem foldStart_closed (n k : ℕ) :
    ∀ t, foldStart n k t = t * (n / k) + min t (n % k) := by
  intro t
  induction t with
  | zero => simp [foldStart]
  | succ t ih =>
      rw [foldStart_succ, ih, foldSize]
      rcases lt_or_ge t (n % k) with h | h
      · rw [if_pos h]
        have h1 : min t (n % k) = t := by omega
        have h2 : min (t + 1) (n % k) = t + 1 := by omega
        rw [h1, h2]
        ring
      · rw [if_neg (by omega)]
        have h1 : min t (n % k) = n % k := by omega
        have h2 : min (t + 1) (n % k) = n % k := by omega
        rw [h1, h2]
        ring

theorem foldStart_last (n k : ℕ) (hk : 0 < k) : foldStart n k k = n := by
  rw [foldStart_closed]
  have h1 : n % k < k := Nat.mod_lt _ hk
  have h2 := Nat.div_add_mod n k
  have h3 : min k (n % k) = n % k := by omega
  rw [h3]
  omega

theorem foldStart_mono (n k : ℕ) {i j : ℕ} (hij : i ≤ j) :
    foldStart n k i ≤ foldStart n k j := by
  rw [foldStart_closed, foldStart_closed]
  have h1 : i * (n / k) ≤ j * (n / k) := Nat.mul_le_mul_right _ hij
  have h2 : min i (n % k) ≤ min j (n % k) := by omega
  omega

theorem mem_kfoldTest (n k i j : ℕ) :
    j ∈ kfoldTest n k i ↔ foldStart n k i ≤ j ∧ j < foldStart n k (i + 1) := by
  rw [foldStart_succ]
  simp only [kfoldTest, List.mem_map, List.mem_range]
  constructor
  · rintro ⟨m, hm, rfl⟩
    omega
  · rintro ⟨h1, h2⟩
    exact ⟨j - foldStart n k i, by omega, by omega⟩

theorem exists_fold (n k : ℕ) :
    ∀ t j, j < foldStart n k t →
      ∃ i, i < t ∧ foldStart n k i ≤ j ∧ j < foldStart n k (i + 1) := by
  intro t
  induction t with
  | zero => simp [foldStart]
  | succ t ih =>
      intro j hj
      by_cases h : j < foldStart n k t
      · obtain ⟨i, hi, h1, h2⟩ := ih j h
        exact ⟨i, Nat.lt_succ_of_lt hi, h1, h2⟩
      · exact ⟨t, Nat.lt_succ_self t, Nat.le_of_not_lt h, hj⟩

theorem mem_kfoldTrain (n k i j : ℕ) :
    j ∈ kfoldTrain n k i ↔ j < n ∧ j ∉ kfoldTest n k i := by
  simp [kfoldTrain, List.mem_filter, List.mem_range]

/-- Claim C3: `KFold` with `n_folds = k` partitions the `n` row indices
into `k` pairwise disjoint folds covering all rows — every row lies in
exactly one test fold — and in each rotation the training rows are
exactly the rows outside the held-back test fold, i.e. the rows of the
other `k − 1` folds. -/
theorem kfold_is_partition (n k : ℕ) (hk : 0 < k) :
    (∀ j, j < n → ∃! i, i < k ∧ j ∈ kfoldTest n k i) ∧
    (∀ i, i < k → ∀ j, j ∈ kfoldTest n k i → j < n) ∧
    (∀ i j, j ∈ kfoldTrain n k i ↔ j < n ∧ j ∉ kfoldTest n k i) ∧
    (∀ i, i < k → ∀ j, j < n →
      (j ∈ kfoldTrain n k i ↔ ∃ t, t < k ∧ t ≠ i ∧ j ∈ kfoldTest n k t)) := by
  have huniq : ∀ j i i', i < k → i' < k →
      j ∈ kfoldTest n k i → j ∈ kfoldTest n k i' → i = i' := by
    intro j i i' hi hi' hmem hmem'
    rw [mem_kfoldTest] at hmem hmem'
    by_contra hne
    rcases Nat.lt_or_ge i i' with h | h
    · have : foldStart n k (i + 1) ≤ foldStart n k i' := foldStart_mono n k h
      omega
    · have h2 : i' < i := by omega
      have : foldStart n k (i' + 1) ≤ foldStart n k i := foldStart_mono n k h2
      omega
  have hexists : ∀ j, j < n → ∃ i, i < k ∧ j ∈ kfoldTest n k i := by
    intro j hj
    have hj2 : j < foldStart n k k := by rw [foldStart_last n k hk]; exact hj
    obtain ⟨i, hi, h1, h2⟩ := exists_fold n k k j hj2
    exact ⟨i, hi, (mem_kfoldTest n k i j).mpr ⟨h1, h2⟩⟩
  have hbound : ∀ i, i < k → ∀ j, j ∈ kfoldTest n k i → j < n := by
    intro i hi j hmem
    rw [mem_kfoldTest] at hmem
    have h1 : foldStart n k (i + 1) ≤ foldStart n k k := foldStart_mono n k (by omega)
    rw [foldStart_last n k hk] at h1
    omega
  refine ⟨?_, hbound, fun i j => mem_kfoldTrain n k i j, ?_⟩
  · intro j hj
    obtain ⟨i, hi, hmem⟩ := hexists j hj
    exact ⟨i, ⟨hi, hmem⟩, fun i' ⟨hi', hmem'⟩ => huniq j i' i hi' hi hmem' hmem⟩
  · intro i hi j hj
    rw [mem_kfoldTrain]
    constructor
    · rintro ⟨-, hnot⟩
      obtain ⟨t, ht, hmem⟩ := hexists j hj
      exact ⟨t, ht, fun he => hnot (he ▸ hmem), hmem⟩
    · rintro ⟨t, ht, htne, hmem⟩
      refine ⟨hj, fun hmem' => htne (huniq j t i ht hi hmem hmem')⟩

/-- Witness for claim C3 with ten rows and three folds. -/
theorem kfold_is_partition_witness :
    (∀ j, j < 10 → ∃! i, i < 3 ∧ j ∈ kfoldTest 10 3 i) ∧
    (∀ i, i < 3 → ∀ j, j ∈ kfoldTest 10 3 i → j < 10) ∧
    (∀ i j, j ∈ kfoldTrain 10 3 i ↔ j < 10 ∧ j ∉ kfoldTest 10 3 i) ∧
    (∀ i, i < 3 → ∀ j, j < 10 →
      (j ∈ kfoldTrain 10 3 i ↔ ∃ t, t < 3 ∧ t ≠ i ∧ j ∈ kfoldTest 10 3 t)) :=
  kfold_is_partition 10 3 (by decide)

theorem oneHotRow_length (n v : ℕ) : (oneHotRow n v).length = n := by
  simp [oneHotRow]

theorem oneHotRow_getD (n v j : ℕ) (hj : j < n) :
    (oneHotRow n v).getD j 0 = if j = v then (1 : ℚ) else 0 := by
  simp [oneHotRow, List.getD_eq_getElem?_getD, List.getElem?_map, List.getElem?_range, hj]

/-- Claim C4: each row of the one-hot encoding produced for a categorical
column is a binary vector whose length is the number of distinct values
of the column, with exactly one position equal to `1` and every other
position `0`. -/
theorem onehot_rows_are_unit_vectors (col : List String) (row : List ℚ)
    (hrow : row ∈ encodeCol col) :
    row.length = (classesOf col).length ∧
    (∃! j, j < (classesOf col).length ∧ row.getD j 0 = 1) ∧
    (∀ j, j < (classesOf col).length → row.getD j 0 = 0 ∨ row.getD j 0 = 1) ∧
    (classesOf col).Nodup ∧ (∀ u, u ∈ classesOf col ↔ u ∈ col) := by
  obtain ⟨s, hs, rfl⟩ := List.mem_map.mp hrow
  have hsc : s ∈ classesOf col := List.mem_dedup.mpr hs
  have hv : labelTransform col s < (classesOf col).length :=
    List.indexOf_lt_length.mpr hsc
  refine ⟨oneHotRow_length _ _, ?_, ?_, List.nodup_dedup _, fun u => List.mem_dedup⟩
  · refine ⟨labelTransform col s, ⟨hv, ?_⟩, ?_⟩
    · rw [oneHotRow_getD _ _ _ hv, if_pos rfl]
    · rintro j ⟨hj, hj1⟩
      rw [oneHotRow_getD _ _ _ hj] at hj1
      by_contra hne
      rw [if_neg hne] at hj1
      norm_num at hj1
  · intro j hj
    rw [oneHotRow_getD _ _ _ hj]
    split_ifs <;> simp

/-- Witness for claim C4 on a two-valued column. -/
theorem onehot_rows_are_unit_vectors_witness :
    (([0, 1] : List ℚ).length = (classesOf ["b", "a", "b"]).length) ∧
    (∃! j, j < (classesOf ["b", "a", "b"]).length ∧ ([0, 1] : List ℚ).getD j 0 = 1) ∧
    (∀ j, j < (classesOf ["b", "a", "b"]).length →
      ([0, 1] : List ℚ).getD j 0 = 0 ∨ ([0, 1] : List ℚ).getD j 0 = 1) ∧
    (classesOf ["b", "a", "b"]).Nodup ∧
    (∀ u, u ∈ classesOf ["b", "a", "b"] ↔ u ∈ ["b", "a", "b"]) :=
  onehot_rows_are_unit_vectors ["b", "a", "b"] [0, 1] (by decide)

/-- Claim C5: a fitted label encoder assigns each distinct input string a
unique integer code below the number of distinct values, and two inputs
receive the same code exactly when they are the same string. -/
theorem label_encoding_unique_codes (ys : List String) (u v : String)
    (hu : u ∈ ys) (hv : v ∈ ys) :
    labelTransform ys u < (classesOf ys).length ∧
    (labelTransform ys u = labelTransform ys v ↔ u = v) ∧
    (classesOf ys).Nodup ∧ (∀ w, w ∈ classesOf ys ↔ w ∈ ys) := by
  have huc : u ∈ classesOf ys := List.mem_dedup.mpr hu
  have hvc : v ∈ classesOf ys := List.mem_dedup.mpr hv
  exact ⟨List.indexOf_lt_length.mpr huc, List.indexOf_inj huc hvc,
    List.nodup_dedup _, fun w => List.mem_dedup⟩

/-- Witness for claim C5 on a three-valued vector. -/
theorem label_encoding_unique_codes_witness :
    labelTransform ["b", "a", "b", "c"] "c" < (classesOf ["b", "a", "b", "c"]).length ∧
    (labelTransform ["b", "a", "b", "c"] "c" = labelTransform ["b", "a", "b", "c"] "a" ↔
      ("c" : String) = "a") ∧
    (classesOf ["b", "a", "b", "c"]).Nodup ∧
    (∀ w, w ∈ classesOf ["b", "a", "b", "c"] ↔ w ∈ ["b", "a", "b", "c"]) :=
  label_encoding_unique_codes ["b", "a", "b", "c"] "c" "a" (by decide) (by decide)

theorem entry_replaceSentinel (x : List (List String)) (i j : ℕ) (v : String)
    (h : entry x i j = some v) :
    entry (replaceSentinel x) i j = some (if v = "?" then "0" else v) := by
  unfold entry at h ⊢
  unfold replaceSentinel
  rw [List.getElem?_map]
  cases hx : x[i]? with
  | none => rw [hx] at h; simp at h
  | some row =>
      rw [hx] at h
      simp at h
      simp [List.getElem?_map, h]

theorem imputeRow_getElem (m : ℕ → ℚ) :
    ∀ (row : List (Option ℚ)) (s t : ℕ),
      (imputeRow m s row)[t]? =
        (row[t]?).map (fun v => match v with | some a => a | none => m (s + t)) := by
  intro row
  induction row with
  | nil => intro s t; simp [imputeRow]
  | cons v rest ih =>
      intro s t
      cases t with
      | zero => cases v <;> simp [imputeRow]
      | succ t =>
          simp only [imputeRow, List.getElem?_cons_succ]
          rw [ih (s + 1) t]
          have h1 : s + 1 + t = s + (t + 1) := by omega
          rw [h1]

/-- Claim C6: the missing-value handling touches exactly the sentinel
entries — an entry equal to `?` becomes zero under the sentinel
replacement, and a missing entry becomes the arithmetic mean of its
column's non-missing values under the imputer — while every non-sentinel
entry keeps its original value under both transformations. -/
theorem missing_value_handling_frame (xs : List (List String))
    (x : List (List (Option ℚ))) (i j : ℕ) :
    (∀ v, v ≠ "?" → entry xs i j = some v → entry (replaceSentinel xs) i j = some v) ∧
    (entry xs i j = some "?" → entry (replaceSentinel xs) i j = some "0") ∧
    (∀ q, entry x i j = some (some q) → entry (imputeX x) i j = some q) ∧
    (entry x i j = some none → entry (imputeX x) i j = some (colMean x j)) ∧
    colMean x j =
      ((column x j).filterMap id).sum / (((column x j).filterMap id).length : ℚ) := by
  have himp : ∀ w, entry x i j = some w →
      entry (imputeX x) i j =
        some (match w with | some a => a | none => colMean x j) := by
    intro w hw
    unfold entry at hw ⊢
    unfold imputeX
    rw [List.getElem?_map]
    cases hx : x[i]? with
    | none => rw [hx] at hw; simp at hw
    | some row =>
        rw [hx] at hw
        simp at hw
        simp [imputeRow_getElem, hw]
  refine ⟨?_, ?_, ?_, ?_, ?_⟩
  · intro v hv h
    have := entry_replaceSentinel xs i j v h
    rwa [if_neg hv] at this
  · intro h
    have := entry_replaceSentinel xs i j "?" h
    rwa [if_pos rfl] at this
  · intro q hq
    exact himp (some q) hq
  · intro h
    exact himp none h
  · unfold colMean npMean
    rw [foldl_add_eq_sum]

/-- Witness for claim C6 on concrete two-by-two tables. -/
theorem missing_value_handling_frame_witness :
    entry (replaceSentinel [["?", "5"], ["4", "?"]]) 0 1 = some "5" ∧
    entry (replaceSentinel [["?", "5"], ["4", "?"]]) 0 0 = some "0" ∧
    entry (imputeX [[some 2, none], [some 4, some 6]]) 1 0 = some 4 ∧
    entry (imputeX [[some 2, none], [some 4, some 6]]) 0 1 =
      some (colMean [[some 2, none], [some 4, some 6]] 1) :=
  ⟨(missing_value_handling_frame [["?", "5"], ["4", "?"]] [] 0 1).1 "5" (by decide) (by decide),
   (missing_value_handling_frame [["?", "5"], ["4", "?"]] [] 0 0).2.1 (by decide),
   (missing_value_handling_frame [] [[some 2, none], [some 4, some 6]] 1 0).2.2.1 4 (by decide),
   (missing_value_handling_frame [] [[some 2, none], [some 4, some 6]] 0 1).2.2.2.1 (by decide)⟩

/-- Claim C7 as stated is false: the one-hot encoding cell is a notebook
cell that is not straight-line — it contains a loop whose body branches
on whether the accumulator is still unset. -/
theorem notebook_cells_not_all_straightline :
    ¬ (∀ c ∈ notebookCells, straightLine c = true) := by
  decide

/-- Claim C7 as amended: every cell except the one-hot encoding cell is
straight-line, and the one-hot cell's accumulator loop — though it
branches on whether the accumulator is unset — computes exactly the
straight-line left-fold concatenation of the per-column encodings, so
the branch performs no case analysis on the data values. -/
theorem cells_straightline_except_onehot :
    straightLine irisCell = true ∧
    straightLine horseColicCell = true ∧
    straightLine imputeCell = true ∧
    straightLine trainTestCell = true ∧
    straightLine kfoldCell = true ∧
    straightLine stratifiedCell = true ∧
    straightLine oneHotEncodeCell = false ∧
    (∀ (c : List String) (cols : List (List String)),
      encodedLoop (c :: cols) =
        some ((cols.map encodeCol).foldl hconcat (encodeCol c))) := by
  refine ⟨by decide, by decide, by decide, by decide, by decide, by decide,
    by decide, ?_⟩
  have key : ∀ (l : List (List String)) (m : List (List ℚ)),
      l.foldl encodedStep (some m) = some ((l.map encodeCol).foldl hconcat m) := by
    intro l
    induction l with
    | nil => intro m; simp
    | cons d rest ih => intro m; simp only [List.foldl_cons, List.map_cons,
        encodedStep, ih (hconcat m (encodeCol d))]
  intro c cols
  exact key cols (encodeCol c)

/-- Claim C8: a cell wraps no phase in a handler, so a fault raised by
the load or by a transformation propagates unchanged to the cell's
result and no accuracy output is produced — the cell never returns a
recovered or default result. -/
theorem cells_propagate_faults (load : Except Fault (List (List String)))
    (transform : List (List String) → Except Fault (List (List ℚ)))
    (evalModel : List (List ℚ) → ℚ) :
    (∀ f, load = Except.error f →
      runCell load transform evalModel = Except.error f ∧
      ∀ s, runCell load transform evalModel ≠ Except.ok s) ∧
    (∀ t f, load = Except.ok t → transform t = Except.error f →
      runCell load transform evalModel = Except.error f ∧
      ∀ s, runCell load transform evalModel ≠ Except.ok s) := by
  constructor
  · rintro f rfl
    exact ⟨rfl, fun s h => by simp [runCell] at h⟩
  · rintro t f rfl ht
    refine ⟨by simp [runCell, ht], fun s h => ?_⟩
    simp [runCell, ht] at h

/-- Witness for claim C8: a missing file and a malformed row each
surface unchanged as the result of the cell. -/
theorem cells_propagate_faults_witness :
    runCell (Except.error Fault.missingFile)
        (fun _ => Except.ok [[0]]) (fun _ => 1) =
      Except.error Fault.missingFile ∧
    runCell (Except.ok [["1"]])
        (fun _ => Except.error Fault.malformedRow) (fun _ => 1) =
      Except.error Fault.malformedRow :=
  ⟨((cells_propagate_faults (Except.error Fault.missingFile)
      (fun _ => Except.ok [[0]]) (fun _ => 1)).1 Fault.missingFile rfl).1,
   ((cells_propagate_faults (Except.ok [["1"]])
      (fun _ => Except.error Fault.malformedRow) (fun _ => 1)).2
      [["1"]] Fault.malformedRow rfl rfl).1⟩

theorem twoDigits_length (a : ℕ) : (twoDigits a).length = 2 := rfl

theorem round_nonneg_rat (q : ℚ) (h : 0 ≤ q) : 0 ≤ round q := by
  rw [round_eq]
  refine Int.le_floor.mpr ?_
  push_cast
  linarith

theorem fmt2_nonneg_spec (q : ℚ) (h : 0 ≤ q) :
    fmt2 q = toString ((round (q * 100)).toNat / 100) ++ "." ++
      twoDigits ((round (q * 100)).toNat % 100) ∧
    |((round (q * 100)).toNat : ℚ) / 100 - q| ≤ 1 / 200 := by
  have hr : 0 ≤ round (q * 100) := round_nonneg_rat _ (by positivity)
  constructor
  · unfold fmt2
    rw [abs_of_nonneg h, if_neg (not_lt.mpr h)]
    rfl
  · have hcast : ((round (q * 100)).toNat : ℚ) = ((round (q * 100) : ℤ) : ℚ) := by
      exact_mod_cast congrArg (fun z : ℤ => (z : ℚ)) (Int.toNat_of_nonneg hr)
    rw [hcast]
    have h2 : ((round (q * 100) : ℤ) : ℚ) / 100 - q =
        (((round (q * 100) : ℤ) : ℚ) - q * 100) / 100 := by ring
    have h3 : |q * 100 - ((round (q * 100) : ℤ) : ℚ)| ≤ 1 / 2 := abs_sub_round (q * 100)
    rw [h2, abs_div, abs_of_pos (show (0 : ℚ) < 100 by norm_num), abs_sub_comm]
    linarith

/-- Claim C9: every accuracy value the notebooks emit appears in a line
of the form `Accuracy: <value>%` where the value is the accuracy
multiplied by 100, rounded to the nearest hundredth, and rendered with
exactly two decimal places followed by a percent sign — both in the
plain accuracy line and at the head of the cross-validation line. -/
theorem accuracy_output_format (acc m s : ℚ)
    (ha : 0 ≤ acc) (hm : 0 ≤ m) (hs : 0 ≤ s) :
    (∃ kk : ℕ,
      accuracyLine acc =
        "Accuracy: " ++ (toString (kk / 100) ++ "." ++ twoDigits (kk % 100)) ++ "%" ∧
      (twoDigits (kk % 100)).length = 2 ∧
      |(kk : ℚ) / 100 - acc * 100| ≤ 1 / 200) ∧
    (∃ kk tt : ℕ,
      kfoldLine m s =
        "Accuracy: " ++ (toString (kk / 100) ++ "." ++ twoDigits (kk % 100)) ++
          "% (" ++ (toString (tt / 100) ++ "." ++ twoDigits (tt % 100)) ++ "%)" ∧
      (twoDigits (kk % 100)).length = 2 ∧
      |(kk : ℚ) / 100 - m * 100| ≤ 1 / 200) := by
  obtain ⟨ha1, ha2⟩ := fmt2_nonneg_spec (acc * 100) (by positivity)
  obtain ⟨hm1, hm2⟩ := fmt2_nonneg_spec (m * 100) (by positivity)
  obtain ⟨hs1, -⟩ := fmt2_nonneg_spec (s * 100) (by positivity)
  constructor
  · refine ⟨(round (acc * 100 * 100)).toNat, ?_, twoDigits_length _, ha2⟩
    unfold accuracyLine
    rw [ha1]
  · refine ⟨(round (m * 100 * 100)).toNat, (round (s * 100 * 100)).toNat,
      ?_, twoDigits_length _, hm2⟩
    unfold kfoldLine
    rw [hm1, hs1]

/-- Witness for claim C9 at the concrete accuracies printed by the
notebooks, 0.92 and mean 0.7669 with standard deviation 0.0711. -/
theorem accuracy_output_format_witness :
    (∃ kk : ℕ,
      accuracyLine (23 / 25) =
        "Accuracy: " ++ (toString (kk / 100) ++ "." ++ twoDigits (kk % 100)) ++ "%" ∧
      (twoDigits (kk % 100)).length = 2 ∧
      |(kk : ℚ) / 100 - 23 / 25 * 100| ≤ 1 / 200) ∧
    (∃ kk tt : ℕ,
      kfoldLine (7669 / 10000) (711 / 10000) =
        "Accuracy: " ++ (toString (kk / 100) ++ "." ++ twoDigits (kk % 100)) ++
          "% (" ++ (toString (tt / 100) ++ "." ++ twoDigits (tt % 100)) ++ "%)" ∧
      (twoDigits (kk % 100)).length = 2 ∧
      |(kk : ℚ) / 100 - 7669 / 10000 * 100| ≤ 1 / 200) :=
  accuracy_output_format (23 / 25) (7669 / 10000) (711 / 10000)
    (by norm_num) (by norm_num) (by norm_num)

/-- Claim C10: every randomized step of the cells is called with
`random_state = 7`, so the cells' partitions and printed output do not
depend on the ambient process randomness: two runs over the same data
coincide, whatever entropy the process holds. -/
theorem seeded_cells_deterministic (perm : ℕ → ℕ → List ℕ)
    (fitPredict : List (List ℚ) → List ℚ → List (List ℚ) → List Int)
    (score : List ℕ × List ℕ → ℚ) (sqrtFn : ℚ → ℚ)
    (e1 e2 : Entropy) (x : List (List ℚ)) (y : List ℚ) (n : ℕ) :
    train_test_split perm x y (33 / 100) (some 7) e1 =
      train_test_split perm x y (33 / 100) (some 7) e2 ∧
    runTrainTestCell perm fitPredict e1 x y =
      runTrainTestCell perm fitPredict e2 x y ∧
    kfoldSplits perm false (some 7) e1 n 10 =
      kfoldSplits perm false (some 7) e2 n 10 ∧
    runKFoldCell perm score sqrtFn e1 n = runKFoldCell perm score sqrtFn e2 n :=
  ⟨rfl, rfl, rfl, rfl⟩

end MLNotebooks
